import Mathlib

/-!
Shallow embedding of the session-aggregation logic of the dashboard
components (classPerformanceData in part_001/part_002, classGroups and
classPerformance in ClassPerformanceRankingTable.tsx, metrics and bestClass
in ClassAttendanceMetricCards.tsx, formatStats in part_003, and
utilizationData in part_005).

JavaScript numbers are modelled as exact rationals extended with the IEEE
special values NaN and the two infinities (`JSNum`); floating-point rounding
is abstracted away, but the NaN/Infinity propagation rules of JS arithmetic
are modelled faithfully (negative zero is not modelled: all numeric inputs
here are plain counts and amounts).  A possibly-absent numeric field is an
`Option Rat` (`none` = `undefined`); a possibly-absent string field is an
`Option String` (`none` = `undefined`, and the empty string is falsy, so the
JS fallback chains `a || b || c` are modelled by `jsOr`/`jsOrD`/`orNum`).
`Array.prototype.sort` (stable in modern engines) is modelled by Mathlib's
stable `List.insertionSort`.  JS object accumulation keyed by strings plus
`Object.values` is modelled by `groupByKey`, which preserves first-encounter
key order (the integer-like-key reordering of JS objects is immaterial to
the properties proved here, all of which are order-insensitive at the
grouping stage or concern a later explicit sort).
-/

/-- A JavaScript number: an exact rational, +Infinity, -Infinity, or NaN. -/
inductive JSNum where
  | num (q : ℚ)
  | posInf
  | negInf
  | nan
deriving DecidableEq, Repr, Inhabited

namespace JSNum

/-- JS addition on `JSNum` (IEEE semantics; NaN absorbs, opposite
infinities give NaN). -/
def jadd : JSNum → JSNum → JSNum
  | num a, num b => num (a + b)
  | num _, posInf => posInf
  | posInf, num _ => posInf
  | num _, negInf => negInf
  | negInf, num _ => negInf
  | posInf, posInf => posInf
  | negInf, negInf => negInf
  | _, _ => nan

/-- JS division on `JSNum`: division by zero yields a signed infinity for a
nonzero numerator and NaN for `0 / 0`. -/
def jdiv : JSNum → JSNum → JSNum
  | num a, num b =>
      if b = 0 then (if a > 0 then posInf else if a < 0 then negInf else nan)
      else num (a / b)
  | num _, posInf => num 0
  | num _, negInf => num 0
  | posInf, num b => if b ≥ 0 then posInf else negInf
  | negInf, num b => if b ≥ 0 then negInf else posInf
  | _, _ => nan

/-- JS multiplication on `JSNum`. -/
def jmul : JSNum → JSNum → JSNum
  | num a, num b => num (a * b)
  | num a, posInf => if a > 0 then posInf else if a < 0 then negInf else nan
  | posInf, num a => if a > 0 then posInf else if a < 0 then negInf else nan
  | num a, negInf => if a > 0 then negInf else if a < 0 then posInf else nan
  | negInf, num a => if a > 0 then negInf else if a < 0 then posInf else nan
  | posInf, posInf => posInf
  | negInf, negInf => posInf
  | posInf, negInf => negInf
  | negInf, posInf => negInf
  | _, _ => nan

/-- The JS comparison `x > 0` (`NaN > 0` is false). -/
def gtZero : JSNum → Bool
  | num a => decide (a > 0)
  | posInf => true
  | _ => false

/-- A total boolean "greater or equal" used to model the comparator
`(a, b) => b.metric - a.metric` handed to the (stable) JS sort: `a` may be
placed before `b` exactly when the comparator is `≤ 0`, i.e. `b ≤ a`.  The
behaviour of the JS sort on NaN comparator results is unspecified; the
convention chosen here only influences the order of the sorted copy, and
every property proved about the ranking passes is permutation-invariant. -/
def geB : JSNum → JSNum → Bool
  | nan, _ => true
  | _, nan => true
  | posInf, _ => true
  | num _, posInf => false
  | negInf, posInf => false
  | num a, num b => decide (b ≤ a)
  | num _, negInf => true
  | negInf, num _ => false
  | negInf, negInf => true

end JSNum

/-- `truthyStr x` is `some s` when the JS string value `x` is truthy
(defined and nonempty), else `none`. -/
def truthyStr : Option String → Option String
  | some s => if s = "" then none else some s
  | none => none

/-- The JS expression `x || y` on string values: `y` is returned as-is
(possibly `undefined` or `""`) when `x` is falsy. -/
def jsOr (x y : Option String) : Option String :=
  match truthyStr x with
  | some s => some s
  | none => y

/-- The JS expression `x || d` with a (truthy) string literal default. -/
def jsOrD (x : Option String) (d : String) : String :=
  match truthyStr x with
  | some s => s
  | none => d

/-- JS template-literal coercion of a possibly-undefined string. -/
def templateStr : Option String → String
  | some s => s
  | none => "undefined"

/-- The JS expression `x || d` on a numeric field (`0`, `NaN`-free inputs,
and `undefined` are falsy; an absent or zero field falls through to `d`). -/
def orNum (x : Option ℚ) (d : ℚ) : ℚ :=
  match x with
  | some q => if q = 0 then d else q
  | none => d

/-- The JS comparison `field > 0` on a possibly-undefined numeric field
(`undefined > 0` is false). -/
def optGtZero : Option ℚ → Bool
  | some q => decide (q > 0)
  | none => false

/-- The JS comparison `field === 0` on a possibly-undefined numeric field
(`undefined === 0` is false). -/
def optEqZero : Option ℚ → Bool
  | some q => decide (q = 0)
  | none => false

/-- Coercion of a possibly-undefined numeric field into JS arithmetic
(`undefined` becomes NaN). -/
def toJS : Option ℚ → JSNum
  | some q => JSNum.num q
  | none => JSNum.nan

/-- One class-session record, with the attributes consumed by the
components.  `date` holds the timestamp obtained from the record's date
string (the `new Date(s).getTime()` parse is abstracted to its numeric
result). -/
structure SessionData where
  uniqueId : Option String := none
  cleanedClass : Option String := none
  classType : Option String := none
  sessionName : Option String := none
  date : ℚ := 0
  dayOfWeek : Option String := none
  time : Option String := none
  trainerName : Option String := none
  capacity : Option ℚ := none
  checkedInCount : Option ℚ := none
  bookedCount : Option ℚ := none
  lateCancelledCount : Option ℚ := none
  revenue : Option ℚ := none
  totalPaid : Option ℚ := none
deriving DecidableEq, Repr, Inhabited

/-- The JS sum `sessions.reduce((sum, s) => sum + f(s), 0)` where `f`
reads a raw (possibly undefined) numeric field. -/
def sumJS (f : SessionData → Option ℚ) (l : List SessionData) : JSNum :=
  l.foldl (fun acc s => JSNum.jadd acc (toJS (f s))) (JSNum.num 0)

/-- `session.revenue || session.totalPaid || 0`. -/
def revenueOf (s : SessionData) : ℚ :=
  orNum s.revenue (orNum s.totalPaid 0)

/-- Append a session to the bucket of key `k` (the first bucket carrying
`k`), creating the bucket at the end when the key is new.  This is one step
of the JS accumulator-object pattern `acc[key].push(session)`. -/
def insertSession (k : String) (s : SessionData) :
    List (String × List SessionData) → List (String × List SessionData)
  | [] => [(k, [s])]
  | (k', ss) :: rest =>
      if k' = k then (k', ss ++ [s]) :: rest
      else (k', ss) :: insertSession k s rest

/-- `data.reduce(...)` grouping records into an object keyed by
`keyFn`, read back in first-encounter key order (`Object.values`). -/
def groupByKey (keyFn : SessionData → String) (data : List SessionData) :
    List (String × List SessionData) :=
  data.foldl (fun acc s => insertSession (keyFn s) s acc) []

/-! ### classPerformanceData (part_001, and part_002 which computes the same
fields plus `totalCapacity`/`avgRevenue` aliases) -/

/-- The grouping key of `classPerformanceData`:
`session.uniqueId || `${session.cleanedClass || session.classType}-fallback`². -/
def groupKey1 (s : SessionData) : String :=
  match truthyStr s.uniqueId with
  | some u => u
  | none => templateStr (jsOr s.cleanedClass s.classType) ++ "-fallback"

/-- The class label of `classPerformanceData`:
`session.cleanedClass || session.classType || session.sessionName || 'Unknown Class'`. -/
def className1 (s : SessionData) : String :=
  jsOrD s.cleanedClass (jsOrD s.classType (jsOrD s.sessionName "Unknown Class"))

/-- One row of `classPerformanceData` (part_001/part_002). -/
structure ClassPerformanceData where
  uniqueId : String
  className : String
  sessionCount : ℕ
  totalCheckIns : JSNum
  totalCapacity : JSNum
  avgCheckIns : JSNum
  avgCheckInsWithoutEmpty : JSNum
  fillPercentage : JSNum
  fillPercentageWithoutEmpty : JSNum
  totalRevenue : ℚ
  rank : ℕ
  rankWithoutEmpty : ℕ
  individualSessions : List SessionData
  emptySessions : ℕ
  sessionsWithCheckIns : ℕ
deriving DecidableEq, Repr, Inhabited

/-- The per-group metric derivation of `classPerformanceData`.  The group's
`className` is taken from the first session encountered for the key, exactly
as the accumulator object records it at bucket creation. -/
def deriveGroup (key : String) (sessions : List SessionData) :
    ClassPerformanceData :=
  let sessionsWithCheckIns := sessions.filter fun s => optGtZero s.checkedInCount
  let emptySessions := sessions.filter fun s => optEqZero s.checkedInCount
  let totalCheckIns := sumJS (fun s => s.checkedInCount) sessions
  let totalCapacity := sumJS (fun s => s.capacity) sessions
  let totalRevenue := (sessions.map revenueOf).sum
  let avgCheckIns := JSNum.jdiv totalCheckIns (JSNum.num sessions.length)
  let avgCheckInsWithoutEmpty :=
    if 0 < sessionsWithCheckIns.length then
      JSNum.jdiv totalCheckIns (JSNum.num sessionsWithCheckIns.length)
    else JSNum.num 0
  let fillPercentage :=
    if JSNum.gtZero totalCapacity then
      JSNum.jmul (JSNum.jdiv totalCheckIns totalCapacity) (JSNum.num 100)
    else JSNum.num 0
  let fillPercentageWithoutEmpty :=
    if 0 < sessionsWithCheckIns.length ∧ JSNum.gtZero totalCapacity then
      JSNum.jmul
        (JSNum.jdiv totalCheckIns (sumJS (fun s => s.capacity) sessionsWithCheckIns))
        (JSNum.num 100)
    else JSNum.num 0
  { uniqueId := key
    className :=
      match sessions with
      | [] => "Unknown Class"
      | s :: _ => className1 s
    sessionCount := sessions.length
    totalCheckIns := totalCheckIns
    totalCapacity := totalCapacity
    avgCheckIns := avgCheckIns
    avgCheckInsWithoutEmpty := avgCheckInsWithoutEmpty
    fillPercentage := fillPercentage
    fillPercentageWithoutEmpty := fillPercentageWithoutEmpty
    totalRevenue := totalRevenue
    rank := 0
    rankWithoutEmpty := 0
    individualSessions :=
      sessions.insertionSort fun a b => b.date ≤ a.date
    emptySessions := emptySessions.length
    sessionsWithCheckIns := sessionsWithCheckIns.length }

/-- The aggregation of part_001/part_002: group by `groupKey1`, derive the
metrics, then run the two ranking passes.  The JS code assigns ranks by
mutating the shared row objects through the sorted copies (the second pass
looks rows up by `uniqueId`, which is the group key and is unique); the
functional rendering gives each row the 1-based position, in the respective
sorted copy, of the row carrying its key. -/
def classPerformanceData (data : List SessionData) :
    List ClassPerformanceData :=
  if data.length = 0 then []
  else
    let performanceData :=
      (groupByKey groupKey1 data).map fun p => deriveGroup p.1 p.2
    let sortedWithEmpty :=
      performanceData.insertionSort fun a b =>
        JSNum.geB a.avgCheckIns b.avgCheckIns
    let sortedWithoutEmpty :=
      performanceData.insertionSort fun a b =>
        JSNum.geB a.avgCheckInsWithoutEmpty b.avgCheckInsWithoutEmpty
    performanceData.map fun g =>
      { g with
        rank :=
          (sortedWithEmpty.findIdx fun x => x.uniqueId == g.uniqueId) + 1
        rankWithoutEmpty :=
          (sortedWithoutEmpty.findIdx fun x => x.uniqueId == g.uniqueId) + 1 }

/-! ### ClassPerformanceRankingTable.tsx (the named file under src/):
classGroups / classPerformance -/

/-- The grouping label of `classGroups`:
`session.cleanedClass || session.classType || 'Unknown Class'` —
note: no `sessionName` step. -/
def rankingLabel (s : SessionData) : String :=
  jsOrD s.cleanedClass (jsOrD s.classType "Unknown Class")

/-- One row of `classPerformance` in ClassPerformanceRankingTable.tsx. -/
structure RankingRow where
  className : String
  sessionCount : ℕ
  avgCheckIns : JSNum
  fillPercentage : JSNum
  totalRevenue : ℚ
  totalCheckIns : JSNum
deriving DecidableEq, Repr, Inhabited

/-- `classPerformance` of ClassPerformanceRankingTable.tsx: group by
`rankingLabel` and derive the per-class metrics (`checkedInCount` and
`capacity` are summed raw, `revenue || totalPaid || 0` for revenue). -/
def classPerformance (data : List SessionData) : List RankingRow :=
  (groupByKey rankingLabel data).map fun p =>
    let totalCheckIns := sumJS (fun s => s.checkedInCount) p.2
    let totalCapacity := sumJS (fun s => s.capacity) p.2
    { className := p.1
      sessionCount := p.2.length
      avgCheckIns := JSNum.jdiv totalCheckIns (JSNum.num p.2.length)
      fillPercentage :=
        if JSNum.gtZero totalCapacity then
          JSNum.jmul (JSNum.jdiv totalCheckIns totalCapacity) (JSNum.num 100)
        else JSNum.num 0
      totalRevenue := (p.2.map revenueOf).sum
      totalCheckIns := totalCheckIns }

/-! ### ClassAttendanceMetricCards.tsx: metrics / bestClass -/

/-- `session.cleanedClass || session.classType` as used in the
`uniqueClasses` count (before `.filter(Boolean)`). -/
def cardLabel (s : SessionData) : Option String :=
  jsOr s.cleanedClass s.classType

/-- `session.cleanedClass || session.classType || 'Unknown'` as used by the
best-performing-class grouping of the metric cards. -/
def cardClassName (s : SessionData) : String :=
  jsOrD s.cleanedClass (jsOrD s.classType "Unknown")

/-- `totalAttendance` of the metric cards:
`data.reduce((sum, session) => sum + (session.checkedInCount || 0), 0)`,
evaluated in JS arithmetic. -/
def totalAttendanceCards (data : List SessionData) : JSNum :=
  data.foldl
    (fun acc s => JSNum.jadd acc (JSNum.num (orNum s.checkedInCount 0)))
    (JSNum.num 0)

/-- `totalCapacity` of the metric cards (same shape, `capacity || 0`). -/
def totalCapacityCards (data : List SessionData) : JSNum :=
  data.foldl
    (fun acc s => JSNum.jadd acc (JSNum.num (orNum s.capacity 0)))
    (JSNum.num 0)

/-- `totalRevenue` of the metric cards
(`session.revenue || session.totalPaid || 0`). -/
def totalRevenueCards (data : List SessionData) : JSNum :=
  data.foldl
    (fun acc s => JSNum.jadd acc (JSNum.num (revenueOf s)))
    (JSNum.num 0)

/-- `uniqueClasses`:
`[...new Set(data.map(s => s.cleanedClass || s.classType).filter(Boolean))].length`. -/
def uniqueClasses (data : List SessionData) : ℕ :=
  (((data.map cardLabel).filterMap truthyStr).dedup).length

/-- `bestClass`: group atttendance by `cardClassName`, compute each class
average, sort descending by average (stable) and take the first element. -/
def bestClass (data : List SessionData) : Option (String × ℚ) :=
  let perf := (groupByKey cardClassName data).map fun p =>
    (p.1, ((p.2.map fun s => orNum s.checkedInCount 0).sum) / (p.2.length : ℚ))
  (perf.insertionSort fun a b => b.2 ≤ a.2).head?

/-! ### part_003: formatStats (ClassAttendancePerformanceTable) -/

/-- The grouping label of `formatStats`:
`session.cleanedClass || session.classType || 'Unknown'` —
note: no `sessionName` step and the short sentinel `'Unknown'`. -/
def formatLabel (s : SessionData) : String :=
  jsOrD s.cleanedClass (jsOrD s.classType "Unknown")

/-- One accumulator row of `formatStats` in part_003 (every incremented
field defaults its summand with `|| 0`, so the sums stay plain numbers). -/
structure FormatStats where
  format : String
  totalSessions : ℕ
  totalCapacity : ℚ
  totalCheckedIn : ℚ
  totalRevenue : ℚ
  totalBooked : ℚ
  totalLateCancelled : ℚ
  emptySessions : ℕ
  revenueGeneratingSessions : ℕ
deriving DecidableEq, Repr, Inhabited

/-- `formatStats` of part_003 rendered per group: the JS accumulator adds
`session.capacity || 0`, `session.checkedInCount || 0`,
`session.totalPaid || 0` (note: no `revenue` step), `bookedCount || 0` and
`lateCancelledCount || 0` per record of the bucket. -/
def formatStats (data : List SessionData) : List FormatStats :=
  (groupByKey formatLabel data).map fun p =>
    { format := p.1
      totalSessions := p.2.length
      totalCapacity := (p.2.map fun s => orNum s.capacity 0).sum
      totalCheckedIn := (p.2.map fun s => orNum s.checkedInCount 0).sum
      totalRevenue := (p.2.map fun s => orNum s.totalPaid 0).sum
      totalBooked := (p.2.map fun s => orNum s.bookedCount 0).sum
      totalLateCancelled := (p.2.map fun s => orNum s.lateCancelledCount 0).sum
      emptySessions := (p.2.filter fun s => orNum s.checkedInCount 0 == 0).length
      revenueGeneratingSessions :=
        (p.2.filter fun s => decide (orNum s.totalPaid 0 > 0)).length }

/-! ### part_005: utilizationData (ClassAttendanceUtilizationTable) -/

/-- One utilization row of part_005 (time-slot / day-of-week / trainer
views all share this shape and derivation).  `formats` records the distinct
`cleanedClass || classType` values added to the JS `Set` (possibly the
undefined value). -/
structure UtilStats where
  key : String
  totalSessions : ℕ
  totalCapacity : ℚ
  totalAttendance : ℚ
  emptySessions : ℕ
  lowAttendanceSessions : ℕ
  fullSessions : ℕ
  formatCount : ℕ
  fillRate : ℚ
  utilizationRate : ℚ
  avgAttendance : ℚ
  efficiency : ℚ
deriving DecidableEq, Repr, Inhabited

/-- The classification chain of part_005, lines 44-46 (and 84-86, 125-127):
`if (attendance === 0) empty++`
`else if (capacity > 0 && attendance / capacity < 0.5) low++`
`else if (capacity > 0 && attendance / capacity >= 0.9) full++`
with `attendance = session.checkedInCount || 0` and
`capacity = session.capacity || 0`. -/
def isEmptyS (s : SessionData) : Bool :=
  orNum s.checkedInCount 0 == 0

/-- Second branch of the part_005 classification chain (reached only when
the session is not empty). -/
def isLowS (s : SessionData) : Bool :=
  let att := orNum s.checkedInCount 0
  let cap := orNum s.capacity 0
  !(att == 0) && (decide (cap > 0) && decide (att / cap < (1 : ℚ) / 2))

/-- Third branch of the part_005 classification chain (reached only when
the session is neither empty nor low-attendance). -/
def isFullS (s : SessionData) : Bool :=
  let att := orNum s.checkedInCount 0
  let cap := orNum s.capacity 0
  !(att == 0) && !(decide (cap > 0) && decide (att / cap < (1 : ℚ) / 2)) &&
    (decide (cap > 0) && decide (att / cap ≥ (9 : ℚ) / 10))

/-- The shared per-group derivation of part_005's three views. -/
def deriveUtil (key : String) (sessions : List SessionData) : UtilStats :=
  let totalSessions := sessions.length
  let totalCapacity := (sessions.map fun s => orNum s.capacity 0).sum
  let totalAttendance := (sessions.map fun s => orNum s.checkedInCount 0).sum
  let emptySessions := (sessions.filter isEmptyS).length
  { key := key
    totalSessions := totalSessions
    totalCapacity := totalCapacity
    totalAttendance := totalAttendance
    emptySessions := emptySessions
    lowAttendanceSessions := (sessions.filter isLowS).length
    fullSessions := (sessions.filter isFullS).length
    formatCount :=
      ((sessions.map fun s => jsOr s.cleanedClass s.classType).dedup).length
    fillRate :=
      if totalCapacity > 0 then totalAttendance / totalCapacity * 100 else 0
    utilizationRate :=
      if totalSessions > 0 then
        ((totalSessions : ℚ) - emptySessions) / totalSessions * 100
      else 0
    avgAttendance :=
      if totalSessions > 0 then totalAttendance / totalSessions else 0
    efficiency :=
      if totalSessions > 0 then
        ((sessions.filter isFullS).length : ℚ) / totalSessions * 100
      else 0 }

/-- `session.time || 'Unknown'`. -/
def timeKey (s : SessionData) : String := jsOrD s.time "Unknown"

/-- `session.dayOfWeek || 'Unknown'`. -/
def dayKey (s : SessionData) : String := jsOrD s.dayOfWeek "Unknown"

/-- `session.trainerName || 'Unknown'`. -/
def trainerKey (s : SessionData) : String := jsOrD s.trainerName "Unknown"

/-- The fixed canonical weekday sequence of part_005. -/
def dayOrder : List String :=
  ["Monday", "Tuesday", "Wednesday", "Thursday", "Friday", "Saturday",
   "Sunday"]

/-- JS `Array.prototype.indexOf`: 0-based index of the first occurrence,
`-1` when absent. -/
def jsIndexOf : List String → String → Int
  | [], _ => -1
  | a :: rest, x =>
      if a = x then 0
      else
        let r := jsIndexOf rest x
        if r = -1 then -1 else r + 1

/-- The time-slot view: grouped by `timeKey`, sorted by
`a.timeSlot.localeCompare(b.timeSlot)` (modelled as the string order). -/
def timeSlotData (data : List SessionData) : List UtilStats :=
  if data.length = 0 then []
  else
    ((groupByKey timeKey data).map fun p => deriveUtil p.1 p.2).insertionSort
      fun a b => a.key ≤ b.key

/-- The day-of-week view: grouped by `dayKey`, sorted ascending by
`dayOrder.indexOf(a.day) - dayOrder.indexOf(b.day)`. -/
def dayOfWeekData (data : List SessionData) : List UtilStats :=
  if data.length = 0 then []
  else
    ((groupByKey dayKey data).map fun p => deriveUtil p.1 p.2).insertionSort
      fun a b => jsIndexOf dayOrder a.key ≤ jsIndexOf dayOrder b.key

/-- The trainer view: grouped by `trainerKey`, sorted descending by
`totalSessions`. -/
def trainerData (data : List SessionData) : List UtilStats :=
  if data.length = 0 then []
  else
    ((groupByKey trainerKey data).map fun p => deriveUtil p.1 p.2).insertionSort
      fun a b => b.totalSessions ≤ a.totalSessions

/-! ### Definitions taken from the spec's words, for comparison with the
code (used by corrected claims) -/

/-- Modelled from the spec: the class-label fallback chain the spec
prescribes for every component
(`cleanedClass → classType → sessionName → "Unknown Class"`). -/
def specClassLabel (s : SessionData) : String :=
  jsOrD s.cleanedClass (jsOrD s.classType (jsOrD s.sessionName "Unknown Class"))

/-- Modelled from the spec: the number of sessions of a group that satisfy
the spec's definition of low attendance,
`capacity > 0 and checkedInCount/capacity < 0.5` (fields defaulted to 0 as
the spec prescribes for missing numerics). -/
def specLowAttendanceCount (sessions : List SessionData) : ℕ :=
  (sessions.filter fun s =>
    decide (orNum s.capacity 0 > 0) &&
      decide (orNum s.checkedInCount 0 / orNum s.capacity 0 < (1 : ℚ) / 2)).length

/-! ### Concrete inputs used by counterexamples and witnesses -/

/-- A record with every optional attribute absent. -/
def blankSession : SessionData := {}

/-- A non-empty session with zero capacity, sharing its group with an empty
session of positive capacity (`cexC1Data`). -/
def cexC1a : SessionData :=
  { uniqueId := some "X", cleanedClass := some "HIIT",
    checkedInCount := some 3, capacity := some 0 }

/-- The empty companion session of `cexC1a`. -/
def cexC1b : SessionData :=
  { uniqueId := some "X", cleanedClass := some "HIIT",
    checkedInCount := some 0, capacity := some 10 }

/-- A group whose non-empty sessions have zero total capacity while the
group's total capacity is positive. -/
def cexC1Data : List SessionData := [cexC1a, cexC1b]

/-- A record whose `checkedInCount` is undefined. -/
def sNoCheck : SessionData :=
  { uniqueId := some "Y", cleanedClass := some "Barre",
    capacity := some 10, totalPaid := some 200 }

/-- A record carrying only a `sessionName`. -/
def sOnlyName : SessionData := { sessionName := some "Yoga" }

/-- A record with both `revenue` and `totalPaid` present (and distinct). -/
def sRev : SessionData :=
  { cleanedClass := some "Cycle", revenue := some 100, totalPaid := some 50,
    checkedInCount := some 5, capacity := some 10 }

/-- An empty session with positive capacity (satisfies the spec's
low-attendance predicate but not the code's). -/
def sLow0 : SessionData :=
  { time := some "07:00", checkedInCount := some 0, capacity := some 10 }

/-- A nearly-full session (90 percent fill). -/
def sFull : SessionData :=
  { time := some "08:00", checkedInCount := some 9, capacity := some 10 }

/-- The spec's §8 scenario: three "HIIT" sessions with check-ins 0, 5, 10
and capacity 10 each. -/
def hiitData : List SessionData :=
  [{ uniqueId := some "H", cleanedClass := some "HIIT",
     checkedInCount := some 0, capacity := some 10 },
   { uniqueId := some "H", cleanedClass := some "HIIT",
     checkedInCount := some 5, capacity := some 10 },
   { uniqueId := some "H", cleanedClass := some "HIIT",
     checkedInCount := some 10, capacity := some 10 }]

/-! ### Lemmas about the grouping fold -/

/-- The bucket of key `k`: contents of the first entry carrying `k`. -/
def bucketOf (k : String) (acc : List (String × List SessionData)) :
    List SessionData :=
  match acc.find? (fun p => p.1 == k) with
  | some p => p.2
  | none => []

theorem bucketOf_insertSession (k k' : String) (s : SessionData)
    (acc : List (String × List SessionData)) :
    bucketOf k (insertSession k' s acc) =
      bucketOf k acc ++ (if k' = k then [s] else []) := by
  induction acc with
  | nil =>
      by_cases h : k' = k
      · simp [insertSession, bucketOf, List.find?, h]
      · have hb : (k' == k) = false := by simp [h]
        simp [insertSession, bucketOf, List.find?, h, hb]
  | cons p rest ih =>
      obtain ⟨a, ss⟩ := p
      simp only [insertSession]
      by_cases hak : a = k'
      · rw [if_pos hak]
        subst hak
        by_cases h : a = k
        · subst h
          simp [bucketOf, List.find?]
        · have hb : (a == k) = false := by simp [h]
          simp [bucketOf, List.find?, hb, h]
      · rw [if_neg hak]
        by_cases h : a = k
        · subst h
          have hkk : ¬ k' = a := fun e => hak e.symm
          simp [bucketOf, List.find?, hkk]
        · have hb : (a == k) = false := by simp [h]
          simp only [bucketOf, List.find?, hb] at ih ⊢
          exact ih

theorem bucketOf_foldl (f : SessionData → String) (k : String) :
    ∀ (data : List SessionData) (acc : List (String × List SessionData)),
    bucketOf k (data.foldl (fun a s => insertSession (f s) s a) acc) =
      bucketOf k acc ++ data.filter (fun s => f s == k) := by
  intro data
  induction data with
  | nil => intro acc; simp
  | cons s rest ih =>
      intro acc
      simp only [List.foldl_cons, ih, bucketOf_insertSession,
        List.filter_cons]
      by_cases h : f s = k
      · simp [h]
      · have : (f s == k) = false := by simp [h]
        simp [h, this]

theorem bucketOf_groupByKey (f : SessionData → String) (k : String)
    (data : List SessionData) :
    bucketOf k (groupByKey f data) = data.filter (fun s => f s == k) := by
  simpa [groupByKey, bucketOf] using bucketOf_foldl f k data []

theorem keys_insertSession (k : String) (s : SessionData)
    (acc : List (String × List SessionData)) :
    (insertSession k s acc).map Prod.fst =
      if k ∈ acc.map Prod.fst then acc.map Prod.fst
      else acc.map Prod.fst ++ [k] := by
  induction acc with
  | nil => simp [insertSession]
  | cons p rest ih =>
      obtain ⟨a, ss⟩ := p
      simp only [insertSession]
      by_cases hak : a = k
      · rw [if_pos hak]
        subst hak
        simp
      · rw [if_neg hak]
        simp only [List.map_cons, List.mem_cons]
        rw [ih]
        by_cases hk : k ∈ rest.map Prod.fst
        · rw [if_pos hk, if_pos (Or.inr hk)]
        · have : ¬ (k = a ∨ k ∈ rest.map Prod.fst) := by
            rintro (h | h)
            · exact hak h.symm
            · exact hk h
          rw [if_neg hk, if_neg this]
          simp

theorem nodup_keys_insertSession (k : String) (s : SessionData)
    (acc : List (String × List SessionData))
    (h : (acc.map Prod.fst).Nodup) :
    ((insertSession k s acc).map Prod.fst).Nodup := by
  rw [keys_insertSession]
  by_cases hk : k ∈ acc.map Prod.fst
  · rwa [if_pos hk]
  · rw [if_neg hk]
    refine List.Nodup.append h (by simp) ?_
    intro x hx hx1
    rcases List.mem_singleton.mp hx1 with rfl
    exact hk hx

theorem nodup_keys_groupByKey (f : SessionData → String)
    (data : List SessionData) :
    ((groupByKey f data).map Prod.fst).Nodup := by
  suffices h : ∀ (l : List SessionData) (acc : List (String × List SessionData)),
      (acc.map Prod.fst).Nodup →
      ((l.foldl (fun a s => insertSession (f s) s a) acc).map Prod.fst).Nodup by
    exact h data [] (by simp)
  intro l
  induction l with
  | nil => intro acc h; simpa using h
  | cons s rest ih =>
      intro acc h
      exact ih _ (nodup_keys_insertSession (f s) s acc h)

theorem sumLens_insertSession (k : String) (s : SessionData)
    (acc : List (String × List SessionData)) :
    ((insertSession k s acc).map fun p => p.2.length).sum =
      ((acc.map fun p => p.2.length).sum) + 1 := by
  induction acc with
  | nil => simp [insertSession]
  | cons p rest ih =>
      obtain ⟨a, ss⟩ := p
      simp only [insertSession]
      by_cases hak : a = k
      · rw [if_pos hak]
        simp only [List.map_cons, List.sum_cons, List.length_append,
          List.length_singleton]
        omega
      · rw [if_neg hak]
        simp only [List.map_cons, List.sum_cons, ih]
        omega

theorem sumLens_groupByKey (f : SessionData → String)
    (data : List SessionData) :
    ((groupByKey f data).map fun p => p.2.length).sum = data.length := by
  suffices h : ∀ (l : List SessionData) (acc : List (String × List SessionData)),
      ((l.foldl (fun a s => insertSession (f s) s a) acc).map
        fun p => p.2.length).sum =
      ((acc.map fun p => p.2.length).sum) + l.length by
    simpa [groupByKey] using h data []
  intro l
  induction l with
  | nil => intro acc; simp
  | cons s rest ih =>
      intro acc
      simp only [List.foldl_cons, ih, sumLens_insertSession, List.length_cons]
      omega

theorem find?_self_of_nodup_keys :
    ∀ (l : List (String × List SessionData)) (p : String × List SessionData),
    (l.map Prod.fst).Nodup → p ∈ l → l.find? (fun q => q.1 == p.1) = some p := by
  intro l
  induction l with
  | nil => intro p _ hp; cases hp
  | cons a rest ih =>
      intro p hnd hp
      rcases List.mem_cons.mp hp with h | h
      · subst h
        simp [List.find?]
      · have ha : a.1 ≠ p.1 := by
          intro e
          have : p.1 ∈ rest.map Prod.fst :=
            List.mem_map.mpr ⟨p, h, rfl⟩
          rw [← e] at this
          exact (List.nodup_cons.mp (by simpa using hnd)).1 this
        have hb : (a.1 == p.1) = false := by simpa using ha
        simp only [List.find?, hb]
        exact ih p (List.nodup_cons.mp (by simpa using hnd)).2 h

/-- Every bucket of `groupByKey` is exactly the sub-sequence of the input
mapped to its key. -/
theorem bucket_eq_filter (f : SessionData → String) (data : List SessionData)
    (p : String × List SessionData) (hp : p ∈ groupByKey f data) :
    p.2 = data.filter (fun s => f s == p.1) := by
  have h1 := find?_self_of_nodup_keys (groupByKey f data) p
    (nodup_keys_groupByKey f data) hp
  have h2 := bucketOf_groupByKey f p.1 data
  rw [bucketOf, h1] at h2
  exact h2

/-! ### Lemmas about JS sums -/

theorem jadd_nan_left (x : JSNum) : JSNum.jadd JSNum.nan x = JSNum.nan := by
  cases x <;> rfl

theorem jadd_nan_right (x : JSNum) : JSNum.jadd x JSNum.nan = JSNum.nan := by
  cases x <;> rfl

theorem foldl_jadd_num (f : SessionData → Option ℚ) :
    ∀ (l : List SessionData) (q : ℚ), (∀ s ∈ l, (f s).isSome) →
    l.foldl (fun acc s => JSNum.jadd acc (toJS (f s))) (JSNum.num q) =
      JSNum.num (q + (l.map fun s => (f s).getD 0).sum) := by
  intro l
  induction l with
  | nil => intro q _; simp
  | cons s rest ih =>
      intro q h
      obtain ⟨c, hc⟩ := Option.isSome_iff_exists.mp (h s (by simp))
      have hrest : ∀ x ∈ rest, (f x).isSome := fun x hx => h x (by simp [hx])
      simp only [List.foldl_cons, List.map_cons, List.sum_cons]
      rw [hc]
      show rest.foldl _ (JSNum.num (q + c)) = _
      rw [ih (q + c) hrest]
      simp only [Option.getD_some]
      ring_nf

theorem sumJS_eq_num (f : SessionData → Option ℚ) (l : List SessionData)
    (h : ∀ s ∈ l, (f s).isSome) :
    sumJS f l = JSNum.num ((l.map fun s => (f s).getD 0).sum) := by
  simpa using foldl_jadd_num f l 0 h

theorem foldl_jadd_from_nan (f : SessionData → Option ℚ) :
    ∀ l : List SessionData,
    l.foldl (fun acc s => JSNum.jadd acc (toJS (f s))) JSNum.nan =
      JSNum.nan := by
  intro l
  induction l with
  | nil => rfl
  | cons s rest ih =>
      simp only [List.foldl_cons, jadd_nan_left]
      exact ih

theorem sumJS_eq_nan (f : SessionData → Option ℚ) :
    ∀ (l : List SessionData), (∃ s ∈ l, f s = none) →
    ∀ acc : JSNum,
    l.foldl (fun a s => JSNum.jadd a (toJS (f s))) acc = JSNum.nan := by
  intro l
  induction l with
  | nil => rintro ⟨s, hs, _⟩; cases hs
  | cons s rest ih =>
      rintro ⟨x, hx, hfx⟩ acc
      rcases List.mem_cons.mp hx with rfl | hx
      · simp only [List.foldl_cons, hfx, toJS, jadd_nan_right]
        exact foldl_jadd_from_nan f rest
      · exact ih ⟨x, hx, hfx⟩ _

/-- A list of nonnegative rationals containing a positive element has a
positive sum. -/
theorem sum_pos_of_mem_pos :
    ∀ (l : List ℚ), (∀ x ∈ l, 0 ≤ x) → ∀ x ∈ l, 0 < x → 0 < l.sum := by
  intro l
  induction l with
  | nil => intro _ x hx; cases hx
  | cons a rest ih =>
      intro h0 x hx hxp
      have ha : 0 ≤ a := h0 a (by simp)
      have hrest0 : ∀ y ∈ rest, 0 ≤ y := fun y hy => h0 y (by simp [hy])
      rcases List.mem_cons.mp hx with rfl | hx
      · have : 0 ≤ rest.sum := List.sum_nonneg hrest0
        simp only [List.sum_cons]
        linarith
      · have : 0 < rest.sum := ih hrest0 x hx hxp
        simp only [List.sum_cons]
        linarith

/-- `List.findIdx` over a mapped list. -/
theorem findIdx_of_map {α β : Type} (f : α → β) (p : β → Bool) :
    ∀ l : List α, (l.map f).findIdx p = l.findIdx (fun a => p (f a)) := by
  intro l
  induction l with
  | nil => rfl
  | cons a rest ih =>
      simp only [List.map_cons, List.findIdx_cons, ih]

/-! ### Misc helper lemmas -/

theorem foldl_insert_const (f : SessionData → String) (k : String) :
    ∀ (l : List SessionData) (ss : List SessionData), (∀ s ∈ l, f s = k) →
    l.foldl (fun a s => insertSession (f s) s a) [(k, ss)] = [(k, ss ++ l)] := by
  intro l
  induction l with
  | nil => intro ss _; simp
  | cons s rest ih =>
      intro ss h
      have hk : f s = k := h s (by simp)
      have hrest : ∀ x ∈ rest, f x = k := fun x hx => h x (by simp [hx])
      have hstep : insertSession (f s) s [(k, ss)] = [(k, ss ++ [s])] := by
        simp [insertSession, hk]
      simp only [List.foldl_cons, hstep]
      rw [ih (ss ++ [s]) hrest]
      simp

/-- Grouping under a constant key yields a single bucket holding the whole
input. -/
theorem groupByKey_const (f : SessionData → String) (k : String)
    (data : List SessionData) (h : ∀ s ∈ data, f s = k) (hne : data ≠ []) :
    groupByKey f data = [(k, data)] := by
  cases data with
  | nil => exact absurd rfl hne
  | cons s rest =>
      have hk : f s = k := h s (by simp)
      have hrest : ∀ x ∈ rest, f x = k := fun x hx => h x (by simp [hx])
      simp only [groupByKey, List.foldl_cons, insertSession, hk]
      rw [foldl_insert_const f k rest [s] hrest]
      simp

/-- JS `indexOf` never returns anything below `-1`. -/
theorem jsIndexOf_ge_neg_one (l : List String) (x : String) :
    -1 ≤ jsIndexOf l x := by
  induction l with
  | nil => simp [jsIndexOf]
  | cons a rest ih =>
      by_cases h : a = x
      · simp [jsIndexOf, h]
      · simp only [jsIndexOf, if_neg h]
        by_cases hr : jsIndexOf rest x = -1
        · simp [hr]
        · rw [if_neg hr]
          omega

/-- Membership characterisation for the rows of `classPerformanceData`:
every row is the metric derivation of some bucket, with only the two rank
fields rewritten by the ranking passes. -/
theorem mem_classPerformanceData (data : List SessionData)
    (g : ClassPerformanceData) (hg : g ∈ classPerformanceData data) :
    ∃ p ∈ groupByKey groupKey1 data, ∃ r r2 : ℕ,
      g = { deriveGroup p.1 p.2 with rank := r, rankWithoutEmpty := r2 } := by
  by_cases hd : data.length = 0
  · rw [classPerformanceData, if_pos hd] at hg
    cases hg
  · rw [classPerformanceData, if_neg hd] at hg
    simp only [List.mem_map] at hg
    obtain ⟨g₀, hg₀, hupd⟩ := hg
    obtain ⟨p, hp, hder⟩ := hg₀
    subst hder
    exact ⟨p, hp, _, _, hupd.symm⟩

/-- Membership characterisation for `classPerformance`
(ClassPerformanceRankingTable.tsx). -/
theorem mem_classPerformance (data : List SessionData) (r : RankingRow)
    (hr : r ∈ classPerformance data) :
    ∃ p ∈ groupByKey rankingLabel data,
      r.className = p.1 ∧
      r.totalRevenue = (p.2.map revenueOf).sum ∧
      r.totalCheckIns = sumJS (fun s => s.checkedInCount) p.2 := by
  simp only [classPerformance, List.mem_map] at hr
  obtain ⟨p, hp, hrow⟩ := hr
  exact ⟨p, hp, by rw [← hrow], by rw [← hrow], by rw [← hrow]⟩

/-- Membership characterisation for `formatStats` (part_003). -/
theorem mem_formatStats (data : List SessionData) (st : FormatStats)
    (hst : st ∈ formatStats data) :
    ∃ p ∈ groupByKey formatLabel data,
      st.format = p.1 ∧
      st.totalRevenue = (p.2.map fun s => orNum s.totalPaid 0).sum := by
  simp only [formatStats, List.mem_map] at hst
  obtain ⟨p, hp, hrow⟩ := hst
  exact ⟨p, hp, by rw [← hrow], by rw [← hrow]⟩

/-- Membership characterisation shared by the three part_005 views. -/
theorem mem_utilView (key : SessionData → String)
    (le : UtilStats → UtilStats → Prop) [DecidableRel le]
    (data : List SessionData) (st : UtilStats)
    (hst : st ∈ (if data.length = 0 then []
      else ((groupByKey key data).map fun p =>
        deriveUtil p.1 p.2).insertionSort le)) :
    ∃ p ∈ groupByKey key data, st = deriveUtil p.1 p.2 := by
  by_cases hd : data.length = 0
  · rw [if_pos hd] at hst
    cases hst
  · rw [if_neg hd] at hst
    have := (List.perm_insertionSort le
      ((groupByKey key data).map fun p => deriveUtil p.1 p.2)).mem_iff.mp hst
    simp only [List.mem_map] at this
    obtain ⟨p, hp, hrow⟩ := this
    exact ⟨p, hp, hrow.symm⟩

/-- The third branch of the part_005 classification chain fires exactly on
the sessions with positive capacity filled to at least 90 percent: such a
session is necessarily non-empty and cannot be low-attendance, so the
preceding branches never swallow it. -/
theorem isFullS_eq (s : SessionData) :
    isFullS s = (decide (orNum s.capacity 0 > 0) &&
      decide (orNum s.checkedInCount 0 / orNum s.capacity 0 ≥ (9 : ℚ) / 10)) := by
  unfold isFullS
  rcases lt_trichotomy (orNum s.capacity 0) 0 with hc | hc | hc
  · have h1 : ¬ orNum s.capacity 0 > 0 := by linarith
    simp [h1]
  · simp [hc]
  · by_cases hr : orNum s.checkedInCount 0 / orNum s.capacity 0 ≥ (9 : ℚ) / 10
    · have hlt : ¬ orNum s.checkedInCount 0 / orNum s.capacity 0 < (1 : ℚ) / 2 := by
        intro h
        have : (9 : ℚ) / 10 < 1 / 2 := lt_of_le_of_lt hr h
        norm_num at this
      have hattpos : 0 < orNum s.checkedInCount 0 := by
        have h9 : (9 : ℚ) / 10 * orNum s.capacity 0 ≤ orNum s.checkedInCount 0 :=
          (le_div_iff₀ hc).mp hr
        nlinarith
      have hne : ¬ orNum s.checkedInCount 0 = 0 := by linarith
      simp [hc, hr, hlt, hne]
      linarith
    · simp [hc, hr]

/-! ### Rank-assignment lemmas -/

/-- In a duplicate-free list of keys, looking each key up by `findIdx`
enumerates exactly the positions `0, …, n-1`. -/
theorem map_findIdx_self (ks : List String) (h : ks.Nodup) :
    (ks.map fun k => ks.findIdx fun u => u == k) = List.range ks.length := by
  induction ks with
  | nil => rfl
  | cons a t ih =>
      have hat : a ∉ t := (List.nodup_cons.mp h).1
      have ht : t.Nodup := (List.nodup_cons.mp h).2
      have hhead : List.findIdx (fun u => u == a) (a :: t) = 0 := by
        simp [List.findIdx_cons]
      have htail : ∀ k ∈ t,
          List.findIdx (fun u => u == k) (a :: t) =
            List.findIdx (fun u => u == k) t + 1 := by
        intro k hk
        have hak : (a == k) = false := by
          simp only [beq_eq_false_iff_ne, ne_eq]
          intro e
          subst e
          exact hat hk
        simp [List.findIdx_cons, hak]
      calc ((a :: t).map fun k => (a :: t).findIdx fun u => u == k)
          = List.findIdx (fun u => u == a) (a :: t) ::
              (t.map fun k => (a :: t).findIdx fun u => u == k) := by
            simp
        _ = 0 :: (t.map fun k => t.findIdx (fun u => u == k) + 1) := by
            rw [hhead, List.map_congr_left htail]
        _ = 0 :: ((t.map fun k => t.findIdx fun u => u == k).map (· + 1)) := by
            rw [List.map_map]
            rfl
        _ = 0 :: ((List.range t.length).map (· + 1)) := by rw [ih ht]
        _ = List.range (a :: t).length := by
            rw [List.length_cons, List.range_succ_eq_map]

/-- Looking up a permuted copy of a duplicate-free key list in the original
enumerates a permutation of the positions. -/
theorem perm_map_findIdx (ks kl : List String) (hnd : ks.Nodup)
    (hperm : kl.Perm ks) :
    (kl.map fun k => ks.findIdx fun u => u == k).Perm
      (List.range ks.length) := by
  have h1 : (kl.map fun k => ks.findIdx fun u => u == k).Perm
      (ks.map fun k => ks.findIdx fun u => u == k) :=
    hperm.map _
  rw [map_findIdx_self ks hnd] at h1
  exact h1

/-- The keys of the derived rows of `classPerformanceData` (before the
ranking passes) are the bucket keys, hence duplicate-free. -/
theorem perf_keys_eq (data : List SessionData) :
    (((groupByKey groupKey1 data).map fun p => deriveGroup p.1 p.2).map
      fun g => g.uniqueId) = (groupByKey groupKey1 data).map Prod.fst := by
  rw [List.map_map]
  rfl

/-- Key-level rank lemma: assigning each key of `kl` one plus its position
in a duplicate-free permuted copy `ks` enumerates `1..n`. -/
theorem perm_map_findIdx_succ (ks kl : List String) (hnd : ks.Nodup)
    (hperm : kl.Perm ks) :
    (kl.map fun k => (ks.findIdx fun u => u == k) + 1).Perm
      (List.range' 1 ks.length) := by
  have h2 := perm_map_findIdx ks kl hnd hperm
  have h3 : (kl.map fun k => (ks.findIdx fun u => u == k) + 1)
      = ((kl.map fun k => ks.findIdx fun u => u == k).map (· + 1)) := by
    rw [List.map_map]
    exact List.map_congr_left fun a _ => rfl
  have h5 : (List.range ks.length).map (· + 1) = List.range' 1 ks.length := by
    rw [List.range'_eq_map_range]
    exact List.map_congr_left fun a _ => Nat.add_comm a 1
  rw [h3, ← h5]
  exact h2.map _

/-- Row-level rank lemma: ranks assigned by looking each row's key up in a
sorted copy form a permutation of `1..N` whenever the keys are
duplicate-free. -/
theorem ranks_perm (perf sorted : List ClassPerformanceData)
    (hperm : sorted.Perm perf)
    (hnd : (perf.map fun g => g.uniqueId).Nodup) :
    (perf.map fun g =>
      (sorted.findIdx fun x => x.uniqueId == g.uniqueId) + 1).Perm
      (List.range' 1 perf.length) := by
  have h1 : (perf.map fun g =>
      (sorted.findIdx fun x => x.uniqueId == g.uniqueId) + 1)
      = ((perf.map fun g => g.uniqueId).map fun k =>
          ((sorted.map fun x => x.uniqueId).findIdx fun u => u == k) + 1) := by
    rw [List.map_map]
    refine List.map_congr_left fun g _ => ?_
    rw [Function.comp_apply, findIdx_of_map]
  have hklks : (sorted.map fun x => x.uniqueId).Perm
      (perf.map fun g => g.uniqueId) := hperm.map _
  have hndks : (sorted.map fun x => x.uniqueId).Nodup :=
    hklks.nodup_iff.mpr hnd
  have h := perm_map_findIdx_succ (sorted.map fun x => x.uniqueId)
    (perf.map fun g => g.uniqueId) hndks hklks.symm
  rw [h1]
  have hlen : (sorted.map fun x => x.uniqueId).length = perf.length := by
    rw [List.length_map]
    exact hperm.length_eq
  rw [hlen] at h
  exact h

/-- The two ranking passes over any derived row list with duplicate-free
keys yield `rank` and `rankWithoutEmpty` multisets `{1..N}`. -/
theorem rank_passes_perm (perf : List ClassPerformanceData)
    (hnd : (perf.map fun g => g.uniqueId).Nodup)
    (le1 le2 : ClassPerformanceData → ClassPerformanceData → Prop)
    [DecidableRel le1] [DecidableRel le2] :
    (((perf.map fun g =>
      { g with
        rank := ((perf.insertionSort le1).findIdx
          fun x : ClassPerformanceData => x.uniqueId == g.uniqueId) + 1
        rankWithoutEmpty := ((perf.insertionSort le2).findIdx
          fun x : ClassPerformanceData => x.uniqueId == g.uniqueId) + 1 }).map
      fun g => g.rank).Perm (List.range' 1 perf.length))
    ∧ (((perf.map fun g =>
      { g with
        rank := ((perf.insertionSort le1).findIdx
          fun x : ClassPerformanceData => x.uniqueId == g.uniqueId) + 1
        rankWithoutEmpty := ((perf.insertionSort le2).findIdx
          fun x : ClassPerformanceData => x.uniqueId == g.uniqueId) + 1 }).map
      fun g => g.rankWithoutEmpty).Perm (List.range' 1 perf.length)) := by
  constructor
  · rw [List.map_map]
    exact ranks_perm perf _ (List.perm_insertionSort le1 perf) hnd
  · rw [List.map_map]
    exact ranks_perm perf _ (List.perm_insertionSort le2 perf) hnd

/-- Claim C6: for every input, after both ranking passes the multiset of
`rank` values over the produced groups is exactly `{1..N}` with `N` the
number of groups (no duplicates, no gaps), and likewise the multiset of
`rankWithoutEmpty` values. -/
theorem claim_C6 (data : List SessionData) :
    (((classPerformanceData data).map fun g => g.rank).Perm
      (List.range' 1 (classPerformanceData data).length))
    ∧ (((classPerformanceData data).map fun g => g.rankWithoutEmpty).Perm
      (List.range' 1 (classPerformanceData data).length)) := by
  by_cases hd : data.length = 0
  · rw [classPerformanceData, if_pos hd]
    simp
  · rw [classPerformanceData, if_neg hd]
    have hnd : (((groupByKey groupKey1 data).map fun p =>
        deriveGroup p.1 p.2).map fun g => g.uniqueId).Nodup := by
      rw [perf_keys_eq]
      exact nodup_keys_groupByKey groupKey1 data
    have h := rank_passes_perm
      ((groupByKey groupKey1 data).map fun p => deriveGroup p.1 p.2) hnd
      (fun a b => JSNum.geB a.avgCheckIns b.avgCheckIns = true)
      (fun a b =>
        JSNum.geB a.avgCheckInsWithoutEmpty b.avgCheckInsWithoutEmpty = true)
    rw [List.length_map]
    exact h

/-- Claim C7: the grouping step partitions the input — each record lands in
exactly one bucket (bucket = the filter of the input on its key, with
duplicate-free keys), the bucket lengths sum to the input length, and the
same holds of `sessionCount` over `classPerformanceData`. -/
theorem claim_C7 (f : SessionData → String) (data : List SessionData) :
    (((groupByKey f data).map fun p => p.2.length).sum = data.length)
    ∧ (∀ p ∈ groupByKey f data, p.2 = data.filter fun s => f s == p.1)
    ∧ (((groupByKey f data).map Prod.fst).Nodup)
    ∧ (((classPerformanceData data).map fun g => g.sessionCount).sum
        = data.length)
    ∧ (∀ g ∈ classPerformanceData data,
        g.sessionCount = (data.filter fun s => groupKey1 s == g.uniqueId).length) := by
  refine ⟨sumLens_groupByKey f data, bucket_eq_filter f data,
    nodup_keys_groupByKey f data, ?_, ?_⟩
  · by_cases hd : data.length = 0
    · rw [classPerformanceData, if_pos hd]
      simp [hd]
    · rw [classPerformanceData, if_neg hd]
      rw [List.map_map, List.map_map]
      exact sumLens_groupByKey groupKey1 data
  · intro g hg
    obtain ⟨p, hp, r, r2, rfl⟩ := mem_classPerformanceData data g hg
    have hb := bucket_eq_filter groupKey1 data p hp
    show p.2.length = (data.filter fun s => groupKey1 s == p.1).length
    rw [hb]

/-- Witness for claim C7 at a concrete input. -/
theorem claim_C7_witness :
    ((groupByKey groupKey1 hiitData).headI).2 =
      hiitData.filter fun s =>
        groupKey1 s == ((groupByKey groupKey1 hiitData).headI).1 :=
  (claim_C7 groupKey1 hiitData).2.1 _ (by decide)

/-- Claim C9: the aggregation is a deterministic pure function of the input
record list — equal inputs produce identical `classPerformanceData` outputs
in every field, and recomputation is idempotent. -/
theorem claim_C9 (d₁ d₂ : List SessionData) (h : d₁ = d₂) :
    classPerformanceData d₁ = classPerformanceData d₂
    ∧ classPerformanceData d₁ = classPerformanceData d₁ := by
  rw [h]
  exact ⟨rfl, rfl⟩

/-- Witness for claim C9 at a concrete input. -/
theorem claim_C9_witness :
    classPerformanceData hiitData = classPerformanceData hiitData :=
  (claim_C9 hiitData hiitData rfl).1

/-- Claim C8: the day-of-week view is ordered ascending by each day's index
in the canonical Monday..Sunday sequence, and a group whose day is absent
from the sequence (index `-1`, e.g. the Unknown day) never appears after a
recognised day — unknown days come first. -/
theorem claim_C8 (data : List SessionData) :
    ((dayOfWeekData data).Pairwise fun a b =>
      jsIndexOf dayOrder a.key ≤ jsIndexOf dayOrder b.key)
    ∧ ((dayOfWeekData data).Pairwise fun a b =>
      jsIndexOf dayOrder b.key = -1 → jsIndexOf dayOrder a.key = -1) := by
  have hmain : (dayOfWeekData data).Pairwise fun a b =>
      jsIndexOf dayOrder a.key ≤ jsIndexOf dayOrder b.key := by
    rw [dayOfWeekData]
    by_cases hd : data.length = 0
    · rw [if_pos hd]
      exact List.Pairwise.nil
    · rw [if_neg hd]
      letI : IsTotal UtilStats (fun a b =>
          jsIndexOf dayOrder a.key ≤ jsIndexOf dayOrder b.key) :=
        ⟨fun a b => le_total _ _⟩
      letI : IsTrans UtilStats (fun a b =>
          jsIndexOf dayOrder a.key ≤ jsIndexOf dayOrder b.key) :=
        ⟨fun a b c hab hbc => le_trans hab hbc⟩
      exact List.sorted_insertionSort _ _
  refine ⟨hmain, hmain.imp ?_⟩
  intro a b hab hb
  have h := jsIndexOf_ge_neg_one dayOrder a.key
  omega

/-- Claim C10: the `uniqueClasses` count skips sessions lacking both
`cleanedClass` and `classType` entirely (prepending such a session never
changes the count), while the best-performing-class grouping files those
sessions under the `Unknown` label; hence on a non-empty input consisting
only of such sessions, `uniqueClasses` is `0` while the best class is named
`Unknown`. -/
theorem claim_C10 :
    (∀ (s : SessionData) (rest : List SessionData),
        truthyStr s.cleanedClass = none → truthyStr s.classType = none →
        uniqueClasses (s :: rest) = uniqueClasses rest)
    ∧ (∀ data : List SessionData, data ≠ [] →
        (∀ s ∈ data,
          truthyStr s.cleanedClass = none ∧ truthyStr s.classType = none) →
        uniqueClasses data = 0 ∧ (bestClass data).map Prod.fst = some "Unknown") := by
  constructor
  · intro s rest h1 h2
    have hlab : truthyStr (cardLabel s) = none := by
      simp [cardLabel, jsOr, h1, h2]
    simp [uniqueClasses, hlab]
  · intro data hne hall
    constructor
    · have hnil : (data.map cardLabel).filterMap truthyStr = [] := by
        rw [List.filterMap_eq_nil_iff]
        intro a ha
        obtain ⟨s, hs, rfl⟩ := List.mem_map.mp ha
        obtain ⟨h1, h2⟩ := hall s hs
        simp [cardLabel, jsOr, h1, h2]
      simp [uniqueClasses, hnil]
    · have hkey : ∀ s ∈ data, cardClassName s = "Unknown" := by
        intro s hs
        obtain ⟨h1, h2⟩ := hall s hs
        simp [cardClassName, jsOrD, h1, h2]
      rw [bestClass]
      rw [groupByKey_const cardClassName "Unknown" data hkey hne]
      simp [List.insertionSort, List.orderedInsert]

/-- Witness for claim C10 at a concrete input. -/
theorem claim_C10_witness :
    uniqueClasses [blankSession] = 0
    ∧ (bestClass [blankSession]).map Prod.fst = some "Unknown" :=
  claim_C10.2 [blankSession] (by decide) (by decide)

/-- Folding JS addition over already-defaulted (plain-number) summands is
an exact rational sum and can never produce NaN. -/
theorem foldl_jadd_allnum (g : SessionData → ℚ) :
    ∀ (l : List SessionData) (q : ℚ),
    l.foldl (fun acc s => JSNum.jadd acc (JSNum.num (g s))) (JSNum.num q) =
      JSNum.num (q + (l.map g).sum) := by
  intro l
  induction l with
  | nil => intro q; simp
  | cons x xs ihx =>
      intro q
      rw [List.foldl_cons]
      have hstep : JSNum.jadd (JSNum.num q) (JSNum.num (g x)) =
          JSNum.num (q + g x) := rfl
      rw [hstep, ihx (q + g x)]
      simp only [List.map_cons, List.sum_cons]
      ring_nf

/-- Counterexample to claim C3: a session carrying only a `sessionName` is
labelled by the spec's chain as "Yoga", but `classGroups` in
ClassPerformanceRankingTable.tsx labels it "Unknown Class" (its chain skips
`sessionName`) and `formatStats` in part_003 labels it "Unknown" (its chain
skips `sessionName` and uses the short sentinel). -/
theorem claim_C3_counterexample :
    rankingLabel sOnlyName = "Unknown Class"
    ∧ formatLabel sOnlyName = "Unknown"
    ∧ specClassLabel sOnlyName = "Yoga"
    ∧ rankingLabel sOnlyName ≠ specClassLabel sOnlyName := by
  refine ⟨rfl, rfl, rfl, ?_⟩
  decide

/-- Claim C3 as amended: only `classPerformanceData` (part_001/part_002)
uses the full chain `cleanedClass → classType → sessionName →
"Unknown Class"`; the labels of ClassPerformanceRankingTable.tsx, part_003,
and the metric cards ignore `sessionName` (their value is unchanged under
any rewrite of that field), and on a fully unlabelled record they produce
the sentinels "Unknown Class" (ranking table) and "Unknown" (part_003 and
metric cards) respectively. -/
theorem claim_C3_amended (s : SessionData) (v : Option String) :
    className1 s = specClassLabel s
    ∧ rankingLabel { s with sessionName := v } = rankingLabel s
    ∧ formatLabel { s with sessionName := v } = formatLabel s
    ∧ cardClassName { s with sessionName := v } = cardClassName s
    ∧ rankingLabel blankSession = "Unknown Class"
    ∧ formatLabel blankSession = "Unknown"
    ∧ cardClassName blankSession = "Unknown" :=
  ⟨rfl, rfl, rfl, rfl, rfl, rfl, rfl⟩

/-- Counterexample to claim C4: a session with `revenue = 100` and
`totalPaid = 50` contributes `50`, not its `revenue`, to the
`formatStats` aggregation of part_003 (which sums only
`totalPaid || 0`). -/
theorem claim_C4_counterexample :
    ((formatStats [sRev]).map fun st => st.totalRevenue) = [(50 : ℚ)]
    ∧ revenueOf sRev = 100 := by
  constructor
  · norm_num [formatStats, groupByKey, insertSession, formatLabel, jsOrD,
      truthyStr, sRev, orNum]
  · norm_num [revenueOf, orNum, sRev]

/-- Claim C4 as amended: `classPerformanceData` (part_001/part_002), the
`classPerformance` rows of ClassPerformanceRankingTable.tsx and the metric
cards all sum the fallback chain `revenue → totalPaid → 0` per session;
`formatStats` (part_003) instead sums only `totalPaid → 0`, ignoring
`revenue` entirely. -/
theorem claim_C4_amended :
    (∀ (data : List SessionData) (g : ClassPerformanceData),
      g ∈ classPerformanceData data →
      g.totalRevenue =
        ((data.filter fun s => groupKey1 s == g.uniqueId).map revenueOf).sum)
    ∧ (∀ (data : List SessionData) (r : RankingRow),
      r ∈ classPerformance data →
      r.totalRevenue =
        ((data.filter fun s => rankingLabel s == r.className).map
          revenueOf).sum)
    ∧ (∀ data : List SessionData,
      totalRevenueCards data = JSNum.num ((data.map revenueOf).sum))
    ∧ (∀ (data : List SessionData) (st : FormatStats),
      st ∈ formatStats data →
      st.totalRevenue =
        ((data.filter fun s => formatLabel s == st.format).map fun s =>
          orNum s.totalPaid 0).sum) := by
  refine ⟨?_, ?_, ?_, ?_⟩
  · intro data g hg
    obtain ⟨p, hp, r, r2, rfl⟩ := mem_classPerformanceData data g hg
    have hb := bucket_eq_filter groupKey1 data p hp
    show (p.2.map revenueOf).sum =
      ((data.filter fun s => groupKey1 s == p.1).map revenueOf).sum
    rw [hb]
  · intro data r hr
    obtain ⟨p, hp, hname, hrev, _⟩ := mem_classPerformance data r hr
    rw [hrev, hname, bucket_eq_filter rankingLabel data p hp]
  · intro data
    simpa using foldl_jadd_allnum revenueOf data 0
  · intro data st hst
    obtain ⟨p, hp, hname, hrev⟩ := mem_formatStats data st hst
    rw [hrev, hname, bucket_eq_filter formatLabel data p hp]

/-- Projection: the ranking passes do not touch `fillPercentageWithoutEmpty`. -/
theorem updClass_fillPWE (x : ClassPerformanceData) (r r2 : ℕ) :
    ({ x with rank := r, rankWithoutEmpty := r2 } : ClassPerformanceData).fillPercentageWithoutEmpty = x.fillPercentageWithoutEmpty := rfl

/-- Projection: the ranking passes do not touch `individualSessions`. -/
theorem updClass_individualSessions (x : ClassPerformanceData) (r r2 : ℕ) :
    ({ x with rank := r, rankWithoutEmpty := r2 } : ClassPerformanceData).individualSessions = x.individualSessions := rfl

/-- Projection: the ranking passes do not touch `totalCheckIns`. -/
theorem updClass_totalCheckIns (x : ClassPerformanceData) (r r2 : ℕ) :
    ({ x with rank := r, rankWithoutEmpty := r2 } : ClassPerformanceData).totalCheckIns = x.totalCheckIns := rfl

/-- The `fillPercentageWithoutEmpty` formula of `deriveGroup`, spelled out. -/
theorem deriveGroup_fillPWE (k : String) (ss : List SessionData) :
    (deriveGroup k ss).fillPercentageWithoutEmpty =
      if 0 < (ss.filter fun s => optGtZero s.checkedInCount).length ∧
          JSNum.gtZero (sumJS (fun s => s.capacity) ss) = true then
        JSNum.jmul
          (JSNum.jdiv (sumJS (fun s => s.checkedInCount) ss)
            (sumJS (fun s => s.capacity)
              (ss.filter fun s => optGtZero s.checkedInCount)))
          (JSNum.num 100)
      else JSNum.num 0 := rfl

/-- The `individualSessions` of `deriveGroup`: the bucket, date-sorted. -/
theorem deriveGroup_individualSessions (k : String) (ss : List SessionData) :
    (deriveGroup k ss).individualSessions =
      ss.insertionSort fun a b => b.date ≤ a.date := rfl

/-- The `totalCheckIns` of `deriveGroup`. -/
theorem deriveGroup_totalCheckIns (k : String) (ss : List SessionData) :
    (deriveGroup k ss).totalCheckIns =
      sumJS (fun s => s.checkedInCount) ss := rfl

/-- Counterexample to claim C1: in the group `{cexC1a, cexC1b}` there is a
non-empty session (3 check-ins, capacity 0) and an empty one (capacity 10),
so the guard `sessionsWithCheckIns.length > 0 && totalCapacity > 0` passes
while the non-empty capacity denominator is 0: the code divides by zero and
produces Infinity, not the 0 the claim requires. -/
theorem claim_C1_counterexample :
    ((classPerformanceData cexC1Data).map
      fun g => g.fillPercentageWithoutEmpty) = [JSNum.posInf]
    ∧ JSNum.posInf ≠ JSNum.num 0 := by
  constructor
  · have hgrp : groupByKey groupKey1 cexC1Data =
        [("X", [cexC1a, cexC1b])] := by decide
    rw [classPerformanceData, if_neg (by decide), hgrp]
    show [({ deriveGroup "X" [cexC1a, cexC1b] with
      rank := _, rankWithoutEmpty := _ } :
        ClassPerformanceData).fillPercentageWithoutEmpty] = _
    rw [updClass_fillPWE, deriveGroup_fillPWE]
    have hfilter : ([cexC1a, cexC1b].filter fun s =>
        optGtZero s.checkedInCount) = [cexC1a] := by decide
    have hcap : sumJS (fun s => s.capacity) [cexC1a, cexC1b] =
        JSNum.num 10 := by
      rw [sumJS_eq_num _ _ (by decide)]
      norm_num [cexC1a, cexC1b]
    have hchk : sumJS (fun s => s.checkedInCount) [cexC1a, cexC1b] =
        JSNum.num 3 := by
      rw [sumJS_eq_num _ _ (by decide)]
      norm_num [cexC1a, cexC1b]
    have hnecap : sumJS (fun s => s.capacity) [cexC1a] = JSNum.num 0 := by
      rw [sumJS_eq_num _ _ (by decide)]
      norm_num [cexC1a]
    rw [hfilter, hcap, hchk, hnecap]
    have hcond : (0 < ([cexC1a] : List SessionData).length ∧
        JSNum.gtZero (JSNum.num 10) = true) := by
      constructor
      · decide
      · show decide ((10 : ℚ) > 0) = true
        norm_num
    rw [if_pos hcond]
    have hdiv : JSNum.jdiv (JSNum.num 3) (JSNum.num 0) = JSNum.posInf := by
      show (if (0 : ℚ) = 0 then
        (if (3 : ℚ) > 0 then JSNum.posInf
         else if (3 : ℚ) < 0 then JSNum.negInf else JSNum.nan)
        else JSNum.num (3 / 0)) = JSNum.posInf
      norm_num
    rw [hdiv]
    show [(if (100 : ℚ) > 0 then JSNum.posInf
      else if (100 : ℚ) < 0 then JSNum.negInf else JSNum.nan)] = [JSNum.posInf]
    norm_num
  · decide

/-- Claim C1 as amended: `fillPercentageWithoutEmpty` equals
`totalCheckIns / (non-empty capacity) * 100` and its guard is
`sessionsWithCheckIns > 0 && totalCapacity > 0` — the *total* capacity, not
the non-empty capacity the spec names.  When the guard passes but the
non-empty capacity is 0, the value is `+Infinity` (never NaN); it is `0`
only when there is no non-empty session or the total capacity is 0.
(Stated for groups of records with defined, nonnegative `checkedInCount`
and `capacity`.) -/
theorem claim_C1_amended (data : List SessionData) (g : ClassPerformanceData)
    (hg : g ∈ classPerformanceData data)
    (hdef : ∀ s ∈ data, s.checkedInCount.isSome ∧ s.capacity.isSome ∧
      0 ≤ s.checkedInCount.getD 0 ∧ 0 ≤ s.capacity.getD 0) :
    g.fillPercentageWithoutEmpty =
      if 0 < (g.individualSessions.filter fun s =>
            optGtZero s.checkedInCount).length ∧
          0 < (g.individualSessions.map fun s => s.capacity.getD 0).sum then
        (if ((g.individualSessions.filter fun s =>
              optGtZero s.checkedInCount).map fun s => s.capacity.getD 0).sum
            = 0 then JSNum.posInf
         else JSNum.num
           (((g.individualSessions.map fun s => s.checkedInCount.getD 0).sum) /
            (((g.individualSessions.filter fun s =>
              optGtZero s.checkedInCount).map fun s => s.capacity.getD 0).sum)
            * 100))
      else JSNum.num 0 := by
  obtain ⟨p, hp, r, r2, rfl⟩ := mem_classPerformanceData data g hg
  have hmem : ∀ s ∈ p.2, s ∈ data := by
    intro s hs
    rw [bucket_eq_filter groupKey1 data p hp] at hs
    exact (List.mem_filter.mp hs).1
  have hdefss : ∀ s ∈ p.2, s.checkedInCount.isSome ∧ s.capacity.isSome ∧
      0 ≤ s.checkedInCount.getD 0 ∧ 0 ≤ s.capacity.getD 0 :=
    fun s hs => hdef s (hmem s hs)
  rw [updClass_fillPWE, updClass_individualSessions,
    deriveGroup_individualSessions, deriveGroup_fillPWE]
  have hperm : (p.2.insertionSort fun a b => b.date ≤ a.date).Perm p.2 :=
    List.perm_insertionSort _ _
  have hpermf := hperm.filter fun s => optGtZero s.checkedInCount
  have hlen : ((p.2.insertionSort fun a b => b.date ≤ a.date).filter
      fun s => optGtZero s.checkedInCount).length =
      (p.2.filter fun s => optGtZero s.checkedInCount).length :=
    hpermf.length_eq
  have hcapsum : ((p.2.insertionSort fun a b => b.date ≤ a.date).map
      fun s => s.capacity.getD 0).sum =
      (p.2.map fun s => s.capacity.getD 0).sum :=
    (hperm.map _).sum_eq
  have hchksum : ((p.2.insertionSort fun a b => b.date ≤ a.date).map
      fun s => s.checkedInCount.getD 0).sum =
      (p.2.map fun s => s.checkedInCount.getD 0).sum :=
    (hperm.map _).sum_eq
  have hnecap : (((p.2.insertionSort fun a b => b.date ≤ a.date).filter
      fun s => optGtZero s.checkedInCount).map
      fun s => s.capacity.getD 0).sum =
      ((p.2.filter fun s => optGtZero s.checkedInCount).map
        fun s => s.capacity.getD 0).sum :=
    (hpermf.map _).sum_eq
  rw [hlen, hcapsum, hchksum, hnecap]
  have hsum1 : sumJS (fun s => s.checkedInCount) p.2 =
      JSNum.num ((p.2.map fun s => s.checkedInCount.getD 0).sum) :=
    sumJS_eq_num _ _ fun s hs => (hdefss s hs).1
  have hsum2 : sumJS (fun s => s.capacity) p.2 =
      JSNum.num ((p.2.map fun s => s.capacity.getD 0).sum) :=
    sumJS_eq_num _ _ fun s hs => (hdefss s hs).2.1
  have hsum3 : sumJS (fun s => s.capacity)
      (p.2.filter fun s => optGtZero s.checkedInCount) =
      JSNum.num (((p.2.filter fun s => optGtZero s.checkedInCount).map
        fun s => s.capacity.getD 0).sum) :=
    sumJS_eq_num _ _ fun s hs =>
      (hdefss s (List.mem_of_mem_filter hs)).2.1
  rw [hsum1, hsum2, hsum3]
  by_cases hc : 0 < (p.2.filter fun s => optGtZero s.checkedInCount).length ∧
      0 < (p.2.map fun s => s.capacity.getD 0).sum
  · have hcL : 0 < (p.2.filter fun s => optGtZero s.checkedInCount).length ∧
        JSNum.gtZero
          (JSNum.num ((p.2.map fun s => s.capacity.getD 0).sum)) = true := by
      refine ⟨hc.1, ?_⟩
      show decide (0 < (p.2.map fun s => s.capacity.getD 0).sum) = true
      exact decide_eq_true hc.2
    rw [if_pos hcL, if_pos hc]
    by_cases hz : ((p.2.filter fun s => optGtZero s.checkedInCount).map
        fun s => s.capacity.getD 0).sum = 0
    · rw [if_pos hz, hz]
      have hckpos : 0 < (p.2.map fun s => s.checkedInCount.getD 0).sum := by
        obtain ⟨s, hs⟩ := List.exists_mem_of_length_pos hc.1
        have hsp2 : s ∈ p.2 := List.mem_of_mem_filter hs
        have hopt := List.of_mem_filter hs
        obtain ⟨c, hcx⟩ := Option.isSome_iff_exists.mp (hdefss s hsp2).1
        have hcpos : 0 < s.checkedInCount.getD 0 := by
          rw [hcx]
          rw [hcx] at hopt
          simpa [optGtZero] using hopt
        exact sum_pos_of_mem_pos _
          (fun x hx => by
            obtain ⟨t, ht, rfl⟩ := List.mem_map.mp hx
            exact (hdefss t ht).2.2.1) _
          (List.mem_map.mpr ⟨s, hsp2, rfl⟩) hcpos
      have h1 : JSNum.jdiv
          (JSNum.num ((p.2.map fun s => s.checkedInCount.getD 0).sum))
          (JSNum.num 0) = JSNum.posInf := by
        show (if (0 : ℚ) = 0 then
          (if (p.2.map fun s => s.checkedInCount.getD 0).sum > 0 then
            JSNum.posInf
           else if (p.2.map fun s => s.checkedInCount.getD 0).sum < 0 then
            JSNum.negInf
           else JSNum.nan)
          else JSNum.num ((p.2.map fun s => s.checkedInCount.getD 0).sum / 0))
          = JSNum.posInf
        rw [if_pos rfl, if_pos hckpos]
      rw [h1]
      show (if (100 : ℚ) > 0 then JSNum.posInf
        else if (100 : ℚ) < 0 then JSNum.negInf else JSNum.nan)
        = JSNum.posInf
      norm_num
    · rw [if_neg hz]
      have h1 : JSNum.jdiv
          (JSNum.num ((p.2.map fun s => s.checkedInCount.getD 0).sum))
          (JSNum.num (((p.2.filter fun s =>
            optGtZero s.checkedInCount).map fun s => s.capacity.getD 0).sum))
          = JSNum.num ((p.2.map fun s => s.checkedInCount.getD 0).sum /
            ((p.2.filter fun s => optGtZero s.checkedInCount).map
              fun s => s.capacity.getD 0).sum) := by
        show (if ((p.2.filter fun s => optGtZero s.checkedInCount).map
            fun s => s.capacity.getD 0).sum = 0 then _
          else JSNum.num ((p.2.map fun s => s.checkedInCount.getD 0).sum /
            ((p.2.filter fun s => optGtZero s.checkedInCount).map
              fun s => s.capacity.getD 0).sum)) = _
        rw [if_neg hz]
      rw [h1]
      rfl
  · have hcL : ¬ (0 < (p.2.filter fun s =>
        optGtZero s.checkedInCount).length ∧
        JSNum.gtZero
          (JSNum.num ((p.2.map fun s => s.capacity.getD 0).sum)) = true) := by
      intro hcontra
      exact hc ⟨hcontra.1, of_decide_eq_true hcontra.2⟩
    rw [if_neg hcL, if_neg hc]

/-- Witness for the amended claim C1 on the spec's §8 scenario (HIIT
sessions with check-ins 0, 5, 10 and capacity 10 each):
`fillPercentageWithoutEmpty = 15 / 20 * 100 = 75`. -/
theorem claim_C1_amended_witness :
    ((classPerformanceData hiitData).head!).fillPercentageWithoutEmpty =
      JSNum.num 75 := by
  have hne : classPerformanceData hiitData ≠ [] := by decide
  have h := claim_C1_amended hiitData _ (List.head!_mem_self hne) (by decide)
  rw [h]
  have hind : ((classPerformanceData hiitData).head!).individualSessions =
      hiitData := by decide
  rw [hind]
  norm_num [hiitData, optGtZero]

/-- Counterexample to claim C2: `classPerformanceData` sums
`checkedInCount` raw (no `|| 0`), so a record whose `checkedInCount` is
undefined drives the group's `totalCheckIns` (and everything derived from
it) to NaN instead of contributing 0. -/
theorem claim_C2_counterexample :
    ((classPerformanceData [sNoCheck]).map fun g => g.totalCheckIns) =
      [JSNum.nan] := by
  decide

/-- Claim C2 as amended: the aggregations that default their summands with
`|| 0` (the metric cards' totalAttendance / totalCapacity / totalRevenue,
and likewise part_003 and part_005, whose sums are defaulted by
construction) are exact rational sums of the defaulted fields and can never
be NaN; but `classPerformanceData` (part_001/part_002) and the ranking
table's `classPerformance` add `checkedInCount` and `capacity` raw, so a
missing field yields NaN there (only their revenue sum is defaulted). -/
theorem claim_C2_amended :
    (∀ data : List SessionData,
      totalAttendanceCards data =
        JSNum.num ((data.map fun s => orNum s.checkedInCount 0).sum)
      ∧ totalCapacityCards data =
        JSNum.num ((data.map fun s => orNum s.capacity 0).sum)
      ∧ totalRevenueCards data = JSNum.num ((data.map revenueOf).sum))
    ∧ (∀ (data : List SessionData) (g : ClassPerformanceData),
      g ∈ classPerformanceData data →
      (∃ s ∈ g.individualSessions, s.checkedInCount = none) →
      g.totalCheckIns = JSNum.nan) := by
  constructor
  · intro data
    refine ⟨?_, ?_, ?_⟩ <;> simpa using foldl_jadd_allnum _ data 0
  · intro data g hg hex
    obtain ⟨p, hp, r, r2, rfl⟩ := mem_classPerformanceData data g hg
    rw [updClass_individualSessions, deriveGroup_individualSessions] at hex
    rw [updClass_totalCheckIns, deriveGroup_totalCheckIns]
    have hperm := List.perm_insertionSort (fun a b => b.date ≤ a.date) p.2
    obtain ⟨s, hs, hnone⟩ := hex
    exact sumJS_eq_nan _ p.2 ⟨s, hperm.mem_iff.mp hs, hnone⟩ (JSNum.num 0)

/-- Witness for the amended claim C2 at a concrete input with a missing
`checkedInCount`. -/
theorem claim_C2_amended_witness :
    ((classPerformanceData [sNoCheck]).head!).totalCheckIns = JSNum.nan := by
  have hne : classPerformanceData [sNoCheck] ≠ [] := by decide
  exact claim_C2_amended.2 [sNoCheck] _ (List.head!_mem_self hne) (by decide)

/-- Witness for the amended claim C4 at a concrete input carrying both
`revenue` and `totalPaid`. -/
theorem claim_C4_amended_witness :
    ((classPerformance [sRev]).head!).totalRevenue =
      (([sRev].filter fun s =>
        rankingLabel s == ((classPerformance [sRev]).head!).className).map
        revenueOf).sum := by
  have hne : classPerformance [sRev] ≠ [] := by decide
  exact claim_C4_amended.2.1 [sRev] _ (List.head!_mem_self hne)

/-- The classification counts of `deriveUtil`, characterised pointwise:
empty is `checkedInCount || 0 === 0`; low-attendance requires *not empty*
on top of the spec's predicate (the `else if` chain); full is exactly
`capacity > 0 && ratio >= 0.9` (an empty or low session can never reach a
0.9 ratio, so the preceding branches never swallow one). -/
theorem deriveUtil_counts (k : String) (ss : List SessionData) :
    (deriveUtil k ss).emptySessions =
      (ss.filter fun s => orNum s.checkedInCount 0 == 0).length
    ∧ (deriveUtil k ss).lowAttendanceSessions =
      (ss.filter fun s => !(orNum s.checkedInCount 0 == 0) &&
        (decide (orNum s.capacity 0 > 0) &&
         decide (orNum s.checkedInCount 0 / orNum s.capacity 0 <
          (1 : ℚ) / 2))).length
    ∧ (deriveUtil k ss).fullSessions =
      (ss.filter fun s => decide (orNum s.capacity 0 > 0) &&
        decide (orNum s.checkedInCount 0 / orNum s.capacity 0 ≥
          (9 : ℚ) / 10)).length := by
  refine ⟨rfl, rfl, ?_⟩
  show (ss.filter isFullS).length = _
  rw [List.filter_congr fun s _ => isFullS_eq s]

/-- The count characterisation lifted to any of the three part_005 views. -/
theorem utilView_counts (keyf : SessionData → String)
    (le : UtilStats → UtilStats → Prop) [DecidableRel le]
    (data : List SessionData) (st : UtilStats)
    (hst : st ∈ (if data.length = 0 then []
      else ((groupByKey keyf data).map fun p =>
        deriveUtil p.1 p.2).insertionSort le)) :
    st.emptySessions = ((data.filter fun s => keyf s == st.key).filter
      fun s => orNum s.checkedInCount 0 == 0).length
    ∧ st.lowAttendanceSessions =
      ((data.filter fun s => keyf s == st.key).filter
        fun s => !(orNum s.checkedInCount 0 == 0) &&
          (decide (orNum s.capacity 0 > 0) &&
           decide (orNum s.checkedInCount 0 / orNum s.capacity 0 <
            (1 : ℚ) / 2))).length
    ∧ st.fullSessions = ((data.filter fun s => keyf s == st.key).filter
      fun s => decide (orNum s.capacity 0 > 0) &&
        decide (orNum s.checkedInCount 0 / orNum s.capacity 0 ≥
          (9 : ℚ) / 10)).length := by
  obtain ⟨p, hp, rfl⟩ := mem_utilView keyf le data st hst
  have hkey : (deriveUtil p.1 p.2).key = p.1 := rfl
  rw [hkey, ← bucket_eq_filter keyf data p hp]
  exact deriveUtil_counts p.1 p.2

/-- Counterexample to claim C5: the session `sLow0` (0 check-ins, capacity
10) satisfies the spec's low-attendance predicate
(`capacity > 0 and checkedInCount/capacity < 0.5`), yet the time-slot view
counts zero low-attendance sessions for its group: the `else if` chain has
already counted it as empty. -/
theorem claim_C5_counterexample :
    ((timeSlotData [sLow0]).map fun st => st.lowAttendanceSessions) = [0]
    ∧ specLowAttendanceCount [sLow0] = 1 := by
  constructor
  · decide
  · norm_num [specLowAttendanceCount, sLow0, orNum]

/-- Claim C5 as amended: in each of the three part_005 views, a group's
`emptySessions` counts `checkedInCount || 0 === 0`, its
`lowAttendanceSessions` counts sessions that are *not empty* and have
`capacity > 0` with a fill ratio below 0.5 (the empty ones are taken by the
preceding branch), and its `fullSessions` counts exactly `capacity > 0`
with ratio at least 0.9. -/
theorem claim_C5_amended (data : List SessionData) (st : UtilStats) :
    (st ∈ timeSlotData data →
      st.emptySessions = ((data.filter fun s => timeKey s == st.key).filter
        fun s => orNum s.checkedInCount 0 == 0).length
      ∧ st.lowAttendanceSessions =
        ((data.filter fun s => timeKey s == st.key).filter
          fun s => !(orNum s.checkedInCount 0 == 0) &&
            (decide (orNum s.capacity 0 > 0) &&
             decide (orNum s.checkedInCount 0 / orNum s.capacity 0 <
              (1 : ℚ) / 2))).length
      ∧ st.fullSessions = ((data.filter fun s => timeKey s == st.key).filter
        fun s => decide (orNum s.capacity 0 > 0) &&
          decide (orNum s.checkedInCount 0 / orNum s.capacity 0 ≥
            (9 : ℚ) / 10)).length)
    ∧ (st ∈ dayOfWeekData data →
      st.emptySessions = ((data.filter fun s => dayKey s == st.key).filter
        fun s => orNum s.checkedInCount 0 == 0).length
      ∧ st.lowAttendanceSessions =
        ((data.filter fun s => dayKey s == st.key).filter
          fun s => !(orNum s.checkedInCount 0 == 0) &&
            (decide (orNum s.capacity 0 > 0) &&
             decide (orNum s.checkedInCount 0 / orNum s.capacity 0 <
              (1 : ℚ) / 2))).length
      ∧ st.fullSessions = ((data.filter fun s => dayKey s == st.key).filter
        fun s => decide (orNum s.capacity 0 > 0) &&
          decide (orNum s.checkedInCount 0 / orNum s.capacity 0 ≥
            (9 : ℚ) / 10)).length)
    ∧ (st ∈ trainerData data →
      st.emptySessions = ((data.filter fun s => trainerKey s == st.key).filter
        fun s => orNum s.checkedInCount 0 == 0).length
      ∧ st.lowAttendanceSessions =
        ((data.filter fun s => trainerKey s == st.key).filter
          fun s => !(orNum s.checkedInCount 0 == 0) &&
            (decide (orNum s.capacity 0 > 0) &&
             decide (orNum s.checkedInCount 0 / orNum s.capacity 0 <
              (1 : ℚ) / 2))).length
      ∧ st.fullSessions = ((data.filter fun s => trainerKey s == st.key).filter
        fun s => decide (orNum s.capacity 0 > 0) &&
          decide (orNum s.checkedInCount 0 / orNum s.capacity 0 ≥
            (9 : ℚ) / 10)).length) := by
  refine ⟨fun h => ?_, fun h => ?_, fun h => ?_⟩
  · exact utilView_counts timeKey _ data st h
  · exact utilView_counts dayKey _ data st h
  · exact utilView_counts trainerKey _ data st h

/-- Witness for the amended claim C5 on a 90-percent-full session. -/
theorem claim_C5_amended_witness :
    ((timeSlotData [sFull]).head!).fullSessions =
      (([sFull].filter fun s =>
        timeKey s == ((timeSlotData [sFull]).head!).key).filter
        fun s => decide (orNum s.capacity 0 > 0) &&
          decide (orNum s.checkedInCount 0 / orNum s.capacity 0 ≥
            (9 : ℚ) / 10)).length := by
  have hne : timeSlotData [sFull] ≠ [] := by decide
  exact (((claim_C5_amended [sFull] _).1 (List.head!_mem_self hne))).2.2
